import Mathlib

/-!
Verification of the salesforce-crud repository core.

Shallow embedding of the repository's CSV serialization layer
(`shared/src/utils/data_handler.py`), the token authority
(`shared/src/salesforce/auth.py`), the bulk-job coordinator
(`shared/src/salesforce/operations.py`, `src/salesforce/operations.py`,
`bulk-service/src/app/routers/bulk.py`) and the single-record retry path
(`salesforce_standard.py`), together with proofs and refutations of the
specification's claims about them.

The CSV functions in the source delegate to Python's `csv` module
(excel dialect, `QUOTE_MINIMAL`, `lineterminator='\n'` for writing,
default dialect for reading, records fed through `csv.DictWriter` /
`csv.DictReader`).  The model below embeds that library behaviour at the
character level, including the corner cases the claims depend on:
minimal quoting, the quoted single-empty-field record, `DictWriter`'s
`restval=''` for missing keys and `extrasaction='ignore'`,
`DictReader`'s `restval=None` padding for short rows and `restkey`
collection for long rows, blank-row skipping, and the reader error on a
carriage return followed by further data inside an unquoted field.
-/

namespace SfCrud

/-- Python's `sub in s` substring test on strings. -/
def pyIn (sub s : String) : Bool := decide (sub.data <:+: s.data)

/-- Characters stripped by Python's `str.strip()` (ASCII whitespace plus
the C1 control whitespace and NEL/NBSP; exotic Unicode spaces do not occur
in the data handled here). -/
def isPySpace (c : Char) : Bool :=
  c.val = 9 || c.val = 10 || c.val = 11 || c.val = 12 || c.val = 13 ||
  c.val = 28 || c.val = 29 || c.val = 30 || c.val = 31 || c.val = 32 ||
  c.val = 133 || c.val = 160

/-- Test for `s.strip() == ""` in Python: every character is whitespace. -/
def pyStripEmpty (s : String) : Bool := s.data.all isPySpace

/-- Python's `str.strip()`: drop leading and trailing whitespace. -/
def pyStrip (s : String) : String :=
  String.mk (((s.data.dropWhile isPySpace).reverse.dropWhile isPySpace).reverse)

/-! ## CSV writing (model of `csv.writer`, excel dialect, QUOTE_MINIMAL,
`lineterminator='\n'`) -/

/-- A field is quoted iff it contains the delimiter, the quote character,
or a character of the line terminator (which is `'\n'` here; note that
`'\r'` does NOT trigger quoting with this configuration). -/
def needsQuote (s : String) : Bool :=
  s.data.any fun c => c = ',' || c = '"' || c = '\n'

/-- Double every quote character (`doublequote=True`). -/
def escChars : List Char → List Char
  | [] => []
  | c :: cs => if c = '"' then '"' :: '"' :: escChars cs else c :: escChars cs

/-- One CSV cell as emitted by the writer. -/
def encodeCell (s : String) : String :=
  if needsQuote s then "\"" ++ String.mk (escChars s.data) ++ "\"" else s

/-- Cells joined by the `','` delimiter. -/
def encodeCells : List String → String
  | [] => ""
  | [c] => encodeCell c
  | c :: cs => encodeCell c ++ "," ++ encodeCells cs

/-- One CSV record line (without the terminator).  Mirrors `_csv.c`: when a
record consists of a single empty unquoted field the writer emits a quoted
empty field so the line is not mistaken for a blank line. -/
def encodeRow (cells : List String) : String :=
  let joined := encodeCells cells
  if cells.length > 0 && joined = "" then "\"\"" else joined

/-- Model of `writer.writerows`: each record followed by the `'\n'` terminator. -/
def writeRows : List (List String) → String
  | [] => ""
  | r :: rs => encodeRow r ++ "\n" ++ writeRows rs

/-! ## Records and `convert_records_to_csv_string` -/

/-- A record as handled by the data handler: a Python dict with string keys
and string-or-`None` values, embedded as an association list in insertion
order (callers build these from `csv.DictReader` rows, JSON objects or XML
elements, so keys are unique in practice). -/
abbrev Record := List (String × Option String)

/-- Model of `record.get(key)`: first binding of the key, if any. -/
def lookupField : Record → String → Option (Option String)
  | [], _ => none
  | (k, v) :: rest, f => if k = f then some v else lookupField rest f

/-- The cell `csv.DictWriter` (with `restval=''`) emits for field `f` of
record `r`: the value if present, the empty string for a `None` value or a
missing key. -/
def cellOf (r : Record) (f : String) : String :=
  match lookupField r f with
  | some (some s) => s
  | _ => ""

/-- The field-name selection of `convert_records_to_csv_string`: an explicit
non-empty `field_order` wins (`if field_order:` is false for `None` and for
`[]`), else the keys of the first record. -/
def csvFieldnames (records : List Record) (field_order : Option (List String)) :
    List String :=
  match field_order with
  | some fo => if fo.isEmpty then (records.headD []).map Prod.fst else fo
  | none => (records.headD []).map Prod.fst

/-- Model of `convert_records_to_csv_string` from `shared/src/utils/data_handler.py`
(the copy in `src/utils/data_handler.py` is identical): empty input or empty
field-name list yields `""`; otherwise a header row from the field names
followed by one row per record, extra keys ignored (`extrasaction='ignore'`),
missing keys and `None` values as empty cells. -/
def convert_records_to_csv_string (records : List Record)
    (field_order : Option (List String) := none) : String :=
  if records.isEmpty then ""
  else
    let fieldnames := csvFieldnames records field_order
    if fieldnames.isEmpty then ""
    else writeRows (fieldnames :: records.map fun r => fieldnames.map (cellOf r))

/-! ## CSV reading (model of `csv.reader`, default excel dialect)

`csv.reader` over a `StringIO` consumes the text line by line (lines split
after `'\n'`, keepends) and runs the `_csv.c` state machine, emitting one
record per line group (quoted fields absorb following lines).  The model
below runs the same machine over the whole character stream: `'\n'` both
terminates an unquoted field and closes the line; `'\r'` terminates an
unquoted field but leaves the machine eating newline characters, where any
character other than `'\r'`/`'\n'` raises `csv.Error` ("new-line character
seen in unquoted field"), modelled as `none`. -/

inductive CsvState
  | startRecord | startField | inField | inQuoted | quoteInQuoted | eatCrnl
deriving DecidableEq

structure CsvParser where
  state : CsvState
  field : List Char
  row : List String
  rows : List (List String)
deriving DecidableEq

def csvInit : CsvParser := ⟨.startRecord, [], [], []⟩

/-- Transition used by both `START_RECORD` (after its newline cases) and
`START_FIELD`, mirroring the fallthrough in `_csv.c`. -/
def fieldStart (p : CsvParser) (c : Char) : CsvParser :=
  if c = '\n' then
    ⟨.startRecord, [], [], p.rows ++ [p.row ++ [String.mk p.field]]⟩
  else if c = '\r' then
    ⟨.eatCrnl, [], p.row ++ [String.mk p.field], p.rows⟩
  else if c = '"' then
    ⟨.inQuoted, p.field, p.row, p.rows⟩
  else if c = ',' then
    ⟨.startField, [], p.row ++ [String.mk p.field], p.rows⟩
  else
    ⟨.inField, p.field ++ [c], p.row, p.rows⟩

/-- One character of the `_csv.c` parser; `none` is `csv.Error`. -/
def csvStep (p : CsvParser) (c : Char) : Option CsvParser :=
  match p.state with
  | .startRecord =>
    if c = '\n' then some ⟨.startRecord, [], [], p.rows ++ [p.row]⟩
    else if c = '\r' then some ⟨.eatCrnl, p.field, p.row, p.rows⟩
    else some (fieldStart p c)
  | .startField => some (fieldStart p c)
  | .inField =>
    if c = '\n' then
      some ⟨.startRecord, [], [], p.rows ++ [p.row ++ [String.mk p.field]]⟩
    else if c = '\r' then
      some ⟨.eatCrnl, [], p.row ++ [String.mk p.field], p.rows⟩
    else if c = ',' then
      some ⟨.startField, [], p.row ++ [String.mk p.field], p.rows⟩
    else
      some ⟨.inField, p.field ++ [c], p.row, p.rows⟩
  | .inQuoted =>
    if c = '"' then some ⟨.quoteInQuoted, p.field, p.row, p.rows⟩
    else some ⟨.inQuoted, p.field ++ [c], p.row, p.rows⟩
  | .quoteInQuoted =>
    if c = '"' then some ⟨.inQuoted, p.field ++ ['"'], p.row, p.rows⟩
    else if c = ',' then
      some ⟨.startField, [], p.row ++ [String.mk p.field], p.rows⟩
    else if c = '\n' then
      some ⟨.startRecord, [], [], p.rows ++ [p.row ++ [String.mk p.field]]⟩
    else if c = '\r' then
      some ⟨.eatCrnl, [], p.row ++ [String.mk p.field], p.rows⟩
    else
      some ⟨.inField, p.field ++ [c], p.row, p.rows⟩
  | .eatCrnl =>
    if c = '\r' then some p
    else if c = '\n' then some ⟨.startRecord, [], [], p.rows ++ [p.row]⟩
    else none

def csvRun : CsvParser → List Char → Option CsvParser
  | p, [] => some p
  | p, c :: cs =>
    match csvStep p c with
    | none => none
    | some p' => csvRun p' cs

/-- End of input: a pending record (a last line without a terminator, or an
unterminated quoted field in non-strict mode) is flushed. -/
def csvFinish (p : CsvParser) : List (List String) :=
  match p.state with
  | .startRecord => p.rows
  | .eatCrnl => p.rows ++ [p.row]
  | _ => p.rows ++ [p.row ++ [String.mk p.field]]

/-- All records produced by `csv.reader` on the string, or `none` on
`csv.Error`. -/
def parseCsvRows (s : String) : Option (List (List String)) :=
  (csvRun csvInit s.data).map csvFinish

/-! ## `csv.DictReader` and `parse_csv_string_to_records` -/

/-- A row dict as built by `csv.DictReader`: the string-keyed fields (in
insertion order, values `None` for the `restval` padding of short rows) and
the `restkey`/`None` entry holding surplus cells of long rows (empty when
the row was not longer than the header). -/
structure PyRecord where
  fields : List (String × Option String)
  extra : List String
deriving DecidableEq

/-- Python dict update: overwrite in place or append. -/
def pyDictUpd (m : List (String × Option String)) (k : String)
    (v : Option String) : List (String × Option String) :=
  if m.any fun p => p.1 = k then
    m.map fun p => if p.1 = k then (k, v) else p
  else m ++ [(k, v)]

/-- Build a Python dict from a pair sequence (later pairs overwrite). -/
def pyDictOfPairs (l : List (String × Option String)) :
    List (String × Option String) :=
  l.foldl (fun m kv => pyDictUpd m kv.1 kv.2) []

/-- One `csv.DictReader` row: `dict(zip(fieldnames, row))`, then `restval`
(`None`) for missing trailing fields, surplus cells under `restkey`. -/
def dictReaderRow (fieldnames : List String) (row : List String) : PyRecord :=
  { fields := pyDictOfPairs ((fieldnames.zip (row.map some)) ++
      (fieldnames.drop row.length).map fun k => (k, (none : Option String)))
    extra := row.drop fieldnames.length }

/-- Model of `parse_csv_string_to_records` from `shared/src/utils/data_handler.py`:
whitespace-only input short-circuits to `[]`; otherwise `csv.DictReader`
takes the first low-level record as the header and skips blank rows.
`none` models a propagated `csv.Error`. -/
def parse_csv_string_to_records (csv_string : String) :
    Option (List PyRecord) :=
  if pyStripEmpty csv_string then some []
  else
    match parseCsvRows csv_string with
    | none => none
    | some [] => some []
    | some (fn :: dataRows) =>
      some (((dataRows.filter fun r => r ≠ []).map (dictReaderRow fn)))

/-- The CSV branch of `read_file_data_for_bulk` (same module): the
`csv.DictReader` rows with the cleaning step
`v if v != "" else None` applied to every value. -/
def cleanRowForBulk (rec : PyRecord) : PyRecord :=
  { rec with fields := rec.fields.map fun kv =>
      (kv.1, if kv.2 = some "" then none else kv.2) }

/-- Model of `read_file_data_for_bulk` restricted to decoded CSV content. -/
def read_file_data_for_bulk_csv (content : String) : Option (List PyRecord) :=
  match parseCsvRows content with
  | none => none
  | some [] => some []
  | some (fn :: dataRows) =>
    some (((dataRows.filter fun r => r ≠ []).map fun r =>
      cleanRowForBulk (dictReaderRow fn r)))

/-! ## Token authority (model of `shared/src/salesforce/auth.py`)

Class-level token cache of `SalesforceAuth`.  Time is modelled in
milliseconds since the epoch (the source compares `datetime` values derived
from the millisecond `issued_at`; the comparison
`now >= expiry - buffer` is the same linear arithmetic in either unit).
Every network interaction is injected as an explicit outcome, and the
`asyncio.Lock` serializes the lock-protected sections, so a run of the
system is a sequence of these atomic operations. -/

structure AuthState where
  access_token : Option String
  instance_url : Option String
  token_expiry : Option Int
  issued_at : Option Int
deriving DecidableEq

def authInit : AuthState := ⟨none, none, none, none⟩

/-- The body of a successful token-endpoint response, as consumed by
`authenticate` (each field may be absent from the JSON). -/
structure AuthResponse where
  access_token : Option String
  instance_url : Option String
  issued_at : Option Int
deriving DecidableEq

/-- The outcome of the `httpx` POST to the token endpoint. -/
abbrev AuthNet := Except String AuthResponse

/-- Assumed token validity: 2 hours, in milliseconds. -/
def assumedValidityMs : Int := 2 * 60 * 60 * 1000

/-- Model of `SalesforceAuth.authenticate`: on network/HTTP failure the state is
untouched and the error propagates; on a response, `access_token` and
`instance_url` are stored first, then `int(issued_at)` (a `TypeError` if
absent, with token and URL already overwritten), then the presence check,
then the expiry computation.  Returns the new state and the raised error,
if any. -/
def authenticate (st : AuthState) (net : AuthNet) : AuthState × Option String :=
  match net with
  | .error e => (st, some e)
  | .ok r =>
    let st1 : AuthState :=
      { st with access_token := r.access_token, instance_url := r.instance_url }
    match r.issued_at with
    | none => (st1, some "TypeError: issued_at missing")
    | some ia =>
      let st2 := { st1 with issued_at := some ia }
      if st2.access_token = none ∨ st2.instance_url = none then
        (st2, some "Salesforce authentication response missing critical data.")
      else
        ({ st2 with token_expiry := some (ia + assumedValidityMs) }, none)

/-- Model of `SalesforceAuth._is_token_expired` (buffer in seconds). -/
def isTokenExpired (st : AuthState) (nowMs bufferS : Int) : Bool :=
  match st.token_expiry, st.access_token with
  | some expiry, some _ => decide (nowMs ≥ expiry - bufferS * 1000)
  | _, _ => true

/-- Model of `SalesforceAuth.get_auth_details`: under the lock, re-authenticate when
the token is expired/absent, or when the token survived the expiry check
but the pair is incomplete; after the lock, fail if the pair is still
incomplete, else return it. -/
def get_auth_details (st : AuthState) (nowMs bufferS : Int) (net : AuthNet) :
    AuthState × Except String (String × String) × Nat :=
  let locked :=
    if isTokenExpired st nowMs bufferS then (authenticate st net, 1)
    else if st.access_token = none ∨ st.instance_url = none then
      (authenticate st net, 1)
    else ((st, none), 0)
  match locked with
  | ((st', some e), n) => (st', .error e, n)
  | ((st', none), n) =>
    match st'.access_token, st'.instance_url with
    | some tok, some url => (st', .ok (tok, url), n)
    | _, _ =>
      (st', .error "Failed to obtain Salesforce authentication details.", n)

/-- Model of `SalesforceAuth.handle_401_unauthorized`: under the lock, clear
`access_token` and `token_expiry` (note: NOT `instance_url`), then
re-authenticate. -/
def handle_401_unauthorized (st : AuthState) (net : AuthNet) :
    AuthState × Option String :=
  authenticate { st with access_token := none, token_expiry := none } net

/-- The claimed invariant: token and instance URL both present or both
absent. -/
def bothOrNeither (st : AuthState) : Prop :=
  (st.access_token.isSome ∧ st.instance_url.isSome) ∨
  (st.access_token.isNone ∧ st.instance_url.isNone)

instance (st : AuthState) : Decidable (bothOrNeither st) := by
  unfold bothOrNeither; infer_instance

/-- Iteration of `get_auth_details` repeated by N (lock-serialized) callers with the same
clock and the same network behaviour; returns the final state, the results
in caller order, and the total number of network authentication calls. -/
def runGetAuthN (st : AuthState) (nowMs bufferS : Int) (net : AuthNet) :
    Nat → AuthState × List (Except String (String × String)) × Nat
  | 0 => (st, [], 0)
  | n + 1 =>
    let (st1, r, c) := get_auth_details st nowMs bufferS net
    let (st2, rs, cs) := runGetAuthN st1 nowMs bufferS net n
    (st2, r :: rs, c + cs)

/-! ## Bulk-job submission (models of `perform_bulk_operation`)

The Salesforce client is modelled as an ideal collaborator (job creation
returns an id and a content URL, uploads and state transitions succeed);
the claims under scrutiny are about the coordinator's own control flow.
The job store records the state each created job was left in. -/

/-- Job states recorded against the single job a submission creates. -/
structure ClientState where
  jobs : List (String × String)
deriving DecidableEq

def clientInit : ClientState := ⟨[]⟩

def bulkJobId : String := "750000000000001"

def createIngestJob (st : ClientState) : ClientState × String :=
  ({ jobs := st.jobs ++ [(bulkJobId, "Open")] }, bulkJobId)

def updateJobState (st : ClientState) (id state : String) : ClientState :=
  { jobs := st.jobs.map fun j => if j.1 = id then (j.1, state) else j }

/-- Model of `perform_bulk_operation` from `shared/src/salesforce/operations.py`:
create the job, serialize the records, abort and raise 400 when the CSV is
blank, else upload and close with "UploadComplete". -/
def perform_bulk_operation_shared (records : List Record) :
    ClientState × Except (Nat × String) String :=
  let (st1, job_id) := createIngestJob clientInit
  let csv_data := convert_records_to_csv_string records
  if pyStripEmpty csv_data then
    (updateJobState st1 job_id "Aborted",
     .error (400, "No records to process."))
  else
    (updateJobState st1 job_id "UploadComplete", .ok job_id)

def dmlOperations : List String :=
  ["insert", "update", "upsert", "delete", "hardDelete"]

/-- Model of `perform_bulk_operation` from `src/salesforce/operations.py`: the upload
branch runs only for the DML operations; inside it, empty `records` aborts
the job and raises 400, a blank or header-only CSV likewise; then the job
is closed with "UploadComplete". -/
def perform_bulk_operation_v2 (operation : String) (records : List Record) :
    ClientState × Except (Nat × String) String :=
  let (st1, job_id) := createIngestJob clientInit
  if dmlOperations.contains operation then
    if records.isEmpty then
      (updateJobState st1 job_id "Aborted",
       .error (400, "No records provided for bulk DML operation."))
    else
      let field_order := (records.headD []).map Prod.fst
      let csv_data := convert_records_to_csv_string records (some field_order)
      if pyStripEmpty csv_data ∨
          ((pyStrip csv_data).splitOn "\n").length < 2 then
        (updateJobState st1 job_id "Aborted",
         .error (400, "CSV data is empty or contains only headers."))
      else
        (updateJobState st1 job_id "UploadComplete", .ok job_id)
  else
    (updateJobState st1 job_id "UploadComplete", .ok job_id)

/-! ## Bulk-job status and results (C3)

`get_bulk_job_status_and_results` (shared module, the version imported by
`bulk-service`) composed with the parsing in
`bulk-service/src/app/routers/bulk.py::handle_get_bulk_job_status_and_results_endpoint`
for ingest jobs.  The backend records what Salesforce would serve for each
of the three result endpoints. -/

structure SfBulkBackend where
  jobState : String
  successfulCsv : String
  failedCsv : String
  unprocessedCsv : String
deriving DecidableEq

/-- The `results_data` dict built by the ingest branch of
`get_bulk_job_status_and_results`: only the successful- and failed-records
endpoints are fetched. -/
def get_bulk_job_results_data (b : SfBulkBackend) :
    Option (List (String × String)) :=
  if b.jobState = "JobComplete" then
    some [("successful_records_csv", b.successfulCsv),
          ("failed_records_csv", b.failedCsv)]
  else none

/-- The three parsed partitions the route handler returns for a completed
ingest job. -/
structure IngestParsed where
  successful_records : List PyRecord
  failed_records : List PyRecord
  unprocessed_records : List PyRecord
deriving DecidableEq

def lookupStr : List (String × String) → String → Option String
  | [], _ => none
  | (k, v) :: rest, f => if k = f then some v else lookupStr rest f

/-- The ingest branch of the route handler: parse
`results_data.get("successful_records_csv","")`, the failed analogue, and
`results_data.get("unprocessed_records_csv","")` (a key the operations
layer never sets).  Outer `none` models a propagated exception (500);
inner `none` is "job not complete, no results". -/
def handle_get_bulk_job_status (b : SfBulkBackend) :
    Option (Option IngestParsed) :=
  match get_bulk_job_results_data b with
  | none => some none
  | some d =>
    match parse_csv_string_to_records ((lookupStr d "successful_records_csv").getD ""),
        parse_csv_string_to_records ((lookupStr d "failed_records_csv").getD ""),
        parse_csv_string_to_records ((lookupStr d "unprocessed_records_csv").getD "") with
    | some s, some f, some u => some (some ⟨s, f, u⟩)
    | _, _, _ => none

/-! ## Single-record retry path (model of `salesforce_standard.py`)

`sf.Account.create` / `.update` / `.delete` outcomes are injected per
attempt index; `time.sleep(RETRY_DELAY * (attempt + 1))` calls are recorded
in a delay trace so the backoff shape is part of the observable result. -/

def RETRY_DELAY : Nat := 5

def BATCH_SIZE : Nat := 200

/-- Outcome of one `sf.Account.create(record)` call. -/
inductive CreateOutcome
  | success (resp : String)
  | failedResp
  | exc (msg : String)
deriving DecidableEq

structure RetryResult where
  response : Option String
  error : Option String
  attemptsMade : Nat
  delays : List Nat
deriving DecidableEq

/-- The `for attempt in range(max_attempts)` loop of `insert_with_retry`,
over the list of remaining attempt indices.  Falling out of the loop
(possible only for `max_attempts = 0`, since the final iteration always
returns) yields the `"Max retry attempts reached"` result.
`attemptsMade` and `delays` record how many create calls were issued and
which `time.sleep` durations ran. -/
def insertLoop (behavior : Nat → CreateOutcome) (max_attempts : Nat) :
    List Nat → RetryResult
  | [] => ⟨none, some "Max retry attempts reached", max_attempts, []⟩
  | attempt :: rest =>
    match behavior attempt with
    | .success r => ⟨some r, none, attempt + 1, []⟩
    | .failedResp => ⟨none, some "Insert failed", attempt + 1, []⟩
    | .exc msg =>
      if pyIn "STORAGE_LIMIT_EXCEEDED" msg then
        ⟨none, some "Storage limit exceeded", attempt + 1, []⟩
      else if attempt < max_attempts - 1 then
        let r := insertLoop behavior max_attempts rest
        ⟨r.response, r.error, r.attemptsMade, RETRY_DELAY * (attempt + 1) :: r.delays⟩
      else
        ⟨none, some msg, attempt + 1, []⟩

/-- Model of `insert_with_retry` from `salesforce_standard.py`. -/
def insert_with_retry (behavior : Nat → CreateOutcome) (max_attempts : Nat) :
    RetryResult :=
  insertLoop behavior max_attempts (List.range max_attempts)

/-- Outcome of one `sf.Account.update` / `sf.Account.delete` call: an HTTP
status code or an exception. -/
inductive RestOutcome
  | resp (code : Nat)
  | exc (msg : String)
deriving DecidableEq

structure UpdateResult where
  success : Bool
  error : Option String
  attemptsMade : Nat
  delays : List Nat
deriving DecidableEq

/-- The retry loop of `update_record_by_id`: 204 succeeds, another status
fails without retry, an `ENTITY_IS_DELETED` exception fails terminally,
any other exception is retried with linear backoff. -/
def updateLoop (behavior : Nat → RestOutcome) (max_attempts : Nat) :
    List Nat → UpdateResult
  | [] => ⟨false, some "Max retry attempts reached", max_attempts, []⟩
  | attempt :: rest =>
    match behavior attempt with
    | .resp 204 => ⟨true, none, attempt + 1, []⟩
    | .resp c =>
      ⟨false, some ("Update failed with status code: " ++ toString c),
       attempt + 1, []⟩
    | .exc msg =>
      if pyIn "ENTITY_IS_DELETED" msg then
        ⟨false, some "Entity is deleted", attempt + 1, []⟩
      else if attempt < max_attempts - 1 then
        let r := updateLoop behavior max_attempts rest
        ⟨r.success, r.error, r.attemptsMade, RETRY_DELAY * (attempt + 1) :: r.delays⟩
      else
        ⟨false, some msg, attempt + 1, []⟩

def update_record_by_id (behavior : Nat → RestOutcome) (max_attempts : Nat) :
    UpdateResult :=
  updateLoop behavior max_attempts (List.range max_attempts)

/-- The retry loop of `delete_record_by_id`: identical shape, but with NO
special case for `ENTITY_IS_DELETED` — every exception is retried. -/
def deleteLoop (behavior : Nat → RestOutcome) (max_attempts : Nat) :
    List Nat → UpdateResult
  | [] => ⟨false, some "Max retry attempts reached", max_attempts, []⟩
  | attempt :: rest =>
    match behavior attempt with
    | .resp 204 => ⟨true, none, attempt + 1, []⟩
    | .resp c =>
      ⟨false, some ("Delete failed with status code: " ++ toString c),
       attempt + 1, []⟩
    | .exc msg =>
      if attempt < max_attempts - 1 then
        let r := deleteLoop behavior max_attempts rest
        ⟨r.success, r.error, r.attemptsMade, RETRY_DELAY * (attempt + 1) :: r.delays⟩
      else
        ⟨false, some msg, attempt + 1, []⟩

def delete_record_by_id (behavior : Nat → RestOutcome) (max_attempts : Nat) :
    UpdateResult :=
  deleteLoop behavior max_attempts (List.range max_attempts)

/-! ## `batch_insert_data` (C8) -/

/-- Outcome of `insert_with_retry` for the record at a given global index:
either a response id or a final error string. -/
inductive InsOut
  | ok (id : String)
  | err (msg : String)
deriving DecidableEq

/-- Inner loop over one chunk (`for record in batch`).  `remainder` is
`records[i:]`, the suffix of ALL records from the chunk start, which is
what the source appends to `failed_records` on a storage-limit error
before returning early.  `Sum.inl` is the early return. -/
def runChunk (outcome : Nat → InsOut) :
    List Record → Nat → List Record →
    List (String × Record) × List (Record × String) →
    (List (String × Record) × List (Record × String)) ⊕
      (List (String × Record) × List (Record × String))
  | [], _, _, acc => .inr acc
  | r :: rest, idx, remainder, (succ, failed) =>
    match outcome idx with
    | .err msg =>
      let failed1 := failed ++ [(r, msg)]
      if pyIn "Storage limit exceeded" msg then
        .inl (succ, failed1 ++ remainder.map fun rr => (rr, "Storage limit exceeded"))
      else runChunk outcome rest (idx + 1) remainder (succ, failed1)
    | .ok id => runChunk outcome rest (idx + 1) remainder (succ ++ [(id, r)], failed)

/-- The chunk start indices `range(0, n, BATCH_SIZE)`. -/
def chunkStarts (n : Nat) : List Nat :=
  List.range' 0 ((n + BATCH_SIZE - 1) / BATCH_SIZE) BATCH_SIZE

/-- Outer loop over chunk start indices (`for i in range(0, len, BATCH_SIZE)`). -/
def batchOuter (outcome : Nat → InsOut) (records : List Record) :
    List Nat → List (String × Record) × List (Record × String) →
    List (String × Record) × List (Record × String)
  | [], acc => acc
  | i :: is, acc =>
    match runChunk outcome ((records.drop i).take BATCH_SIZE) i
        (records.drop i) acc with
    | .inl early => early
    | .inr acc' => batchOuter outcome records is acc'

/-- Model of `batch_insert_data` from `salesforce_standard.py`: a failed storage
probe marks every record failed up front; otherwise records are processed
in fixed-size chunks. -/
def batch_insert_data (storageOk : Bool) (outcome : Nat → InsOut)
    (records : List Record) :
    List (String × Record) × List (Record × String) :=
  if !storageOk then
    ([], records.map fun r => (r, "Storage limit exceeded"))
  else batchOuter outcome records (chunkStarts records.length) ([], [])

/-! ## Retry-loop lemmas -/

/-- The `time.sleep` trace of a linear-backoff run from attempt `a` up to
(but excluding) attempt `k`: `RETRY_DELAY * (j + 1)` after attempt `j`. -/
def linearDelays (a k : Nat) : List Nat :=
  (List.range' a (k - a)).map fun j => RETRY_DELAY * (j + 1)

theorem linearDelays_self (k : Nat) : linearDelays k k = by
    exact [] := by
  simp [linearDelays]

theorem linearDelays_cons (a k : Nat) (h : a < k) :
    linearDelays a k = RETRY_DELAY * (a + 1) :: linearDelays (a + 1) k := by
  unfold linearDelays
  have h1 : k - a = (k - (a + 1)) + 1 := by omega
  rw [h1, List.range'_succ]
  simp

theorem insertLoop_storage (b : Nat → CreateOutcome) (max k : Nat) (msg : String)
    (hk : k < max)
    (hpre : ∀ j, j < k → ∃ m, b j = .exc m ∧
      pyIn "STORAGE_LIMIT_EXCEEDED" m = false)
    (hbk : b k = .exc msg)
    (hst : pyIn "STORAGE_LIMIT_EXCEEDED" msg = true) :
    ∀ n a, a + n = max → a ≤ k →
      insertLoop b max (List.range' a n) =
        ⟨none, some "Storage limit exceeded", k + 1, linearDelays a k⟩ := by
  intro n
  induction n with
  | zero => intro a ha hak; omega
  | succ n ih =>
    intro a ha hak
    rw [List.range'_succ]
    rcases Nat.eq_or_lt_of_le hak with heq | hlt
    · subst heq
      simp [insertLoop, hbk, hst, linearDelays_self]
    · obtain ⟨m, hbm, hm⟩ := hpre a hlt
      have hlt1 : a < max - 1 := by omega
      rw [linearDelays_cons a k hlt]
      simp only [insertLoop, hbm, hm, Bool.false_eq_true, if_false, if_pos hlt1]
      rw [ih (a + 1) (by omega) (by omega)]

theorem insertLoop_exhaust (b : Nat → CreateOutcome) (max : Nat)
    (msgf : Nat → String)
    (hb : ∀ j, j < max → b j = .exc (msgf j) ∧
      pyIn "STORAGE_LIMIT_EXCEEDED" (msgf j) = false) :
    ∀ n a, a + n = max → a < max →
      insertLoop b max (List.range' a n) =
        ⟨none, some (msgf (max - 1)), max, linearDelays a (max - 1)⟩ := by
  intro n
  induction n with
  | zero => intro a ha hak; omega
  | succ n ih =>
    intro a ha hak
    rw [List.range'_succ]
    obtain ⟨hbm, hm⟩ := hb a hak
    by_cases hlast : a = max - 1
    · subst hlast
      have : ¬ (max - 1 < max - 1) := by omega
      simp only [insertLoop, hbm, hm, Bool.false_eq_true, if_false, this,
        linearDelays_self]
      congr 1
      omega
    · have hlt1 : a < max - 1 := by omega
      rw [linearDelays_cons a (max - 1) hlt1]
      simp only [insertLoop, hbm, hm, Bool.false_eq_true, if_false, if_pos hlt1]
      rw [ih (a + 1) (by omega) (by omega)]

/-- C7: `insert_with_retry` returns immediately (no further attempts, no
sleeps after the storage error) on a storage-limit error at attempt `k`;
on any run of only non-storage exceptions it performs exactly
`max_attempts` attempts separated by the linearly increasing delays
`RETRY_DELAY * attempt_number`, and returns the last exception's message
with no response. -/
theorem c7_insert_with_retry_policy (b : Nat → CreateOutcome) (max k : Nat)
    (msg : String) (msgf : Nat → String) (hmax : 1 ≤ max) :
    (k < max →
      (∀ j, j < k → ∃ m, b j = .exc m ∧
        pyIn "STORAGE_LIMIT_EXCEEDED" m = false) →
      b k = .exc msg → pyIn "STORAGE_LIMIT_EXCEEDED" msg = true →
      insert_with_retry b max =
        ⟨none, some "Storage limit exceeded", k + 1, linearDelays 0 k⟩) ∧
    ((∀ j, j < max → b j = .exc (msgf j) ∧
        pyIn "STORAGE_LIMIT_EXCEEDED" (msgf j) = false) →
      insert_with_retry b max =
        ⟨none, some (msgf (max - 1)), max, linearDelays 0 (max - 1)⟩) := by
  constructor
  · intro hk hpre hbk hst
    unfold insert_with_retry
    rw [List.range_eq_range']
    exact insertLoop_storage b max k msg hk hpre hbk hst max 0 (by omega) (by omega)
  · intro hb
    unfold insert_with_retry
    rw [List.range_eq_range']
    exact insertLoop_exhaust b max msgf hb max 0 (by omega) (by omega)

/-- Witness for C7: a storage-limit error on the first attempt returns at
once; three straight connection errors exhaust all three attempts with
delays 5 and 10 and surface the last error. -/
theorem c7_insert_with_retry_policy_witness :
    insert_with_retry (fun _ => .exc "STORAGE_LIMIT_EXCEEDED: storage limit exceeded") 3 =
      ⟨none, some "Storage limit exceeded", 1, []⟩ ∧
    insert_with_retry (fun _ => .exc "ConnectionError: timed out") 3 =
      ⟨none, some "ConnectionError: timed out", 3, [5, 10]⟩ := by
  constructor
  · have h := (c7_insert_with_retry_policy
      (fun _ => .exc "STORAGE_LIMIT_EXCEEDED: storage limit exceeded") 3 0
      "STORAGE_LIMIT_EXCEEDED: storage limit exceeded" (fun _ => "") (by omega)).1
      (by omega) (by intro j hj; omega) rfl (by decide)
    simpa [linearDelays] using h
  · have h := (c7_insert_with_retry_policy
      (fun _ => .exc "ConnectionError: timed out") 3 0 ""
      (fun _ => "ConnectionError: timed out") (by omega)).2
      (by intro j hj; exact ⟨rfl, by decide⟩)
    simpa [linearDelays, List.range', RETRY_DELAY] using h

theorem updateLoop_entity_deleted (b : Nat → RestOutcome) (max k : Nat)
    (msg : String) (hk : k < max)
    (hpre : ∀ j, j < k → ∃ m, b j = .exc m ∧
      pyIn "ENTITY_IS_DELETED" m = false)
    (hbk : b k = .exc msg)
    (hst : pyIn "ENTITY_IS_DELETED" msg = true) :
    ∀ n a, a + n = max → a ≤ k →
      updateLoop b max (List.range' a n) =
        ⟨false, some "Entity is deleted", k + 1, linearDelays a k⟩ := by
  intro n
  induction n with
  | zero => intro a ha hak; omega
  | succ n ih =>
    intro a ha hak
    rw [List.range'_succ]
    rcases Nat.eq_or_lt_of_le hak with heq | hlt
    · subst heq
      simp [updateLoop, hbk, hst, linearDelays_self]
    · obtain ⟨m, hbm, hm⟩ := hpre a hlt
      have hlt1 : a < max - 1 := by omega
      rw [linearDelays_cons a k hlt]
      simp only [updateLoop, hbm, hm, Bool.false_eq_true, if_false, if_pos hlt1]
      rw [ih (a + 1) (by omega) (by omega)]

theorem deleteLoop_exhaust (b : Nat → RestOutcome) (max : Nat)
    (msgf : Nat → String)
    (hb : ∀ j, j < max → b j = .exc (msgf j)) :
    ∀ n a, a + n = max → a < max →
      deleteLoop b max (List.range' a n) =
        ⟨false, some (msgf (max - 1)), max, linearDelays a (max - 1)⟩ := by
  intro n
  induction n with
  | zero => intro a ha hak; omega
  | succ n ih =>
    intro a ha hak
    rw [List.range'_succ]
    have hbm := hb a hak
    by_cases hlast : a = max - 1
    · subst hlast
      have hno : ¬ (max - 1 < max - 1) := by omega
      simp only [deleteLoop, hbm, hno, if_false, linearDelays_self]
      congr 1
      omega
    · have hlt1 : a < max - 1 := by omega
      rw [linearDelays_cons a (max - 1) hlt1]
      simp only [deleteLoop, hbm, if_pos hlt1]
      rw [ih (a + 1) (by omega) (by omega)]

/-- C9 counterexample: `delete_record_by_id` facing an
`ENTITY_IS_DELETED` exception on every call does NOT return immediately —
it performs all 3 attempts, sleeping 5 and 10 seconds in between, and
surfaces the raw exception text instead of a terminal
entity-deleted failure. -/
theorem c9_delete_retries_entity_deleted :
    delete_record_by_id (fun _ => .exc "ENTITY_IS_DELETED: entity is deleted") 3 =
      ⟨false, some "ENTITY_IS_DELETED: entity is deleted", 3, [5, 10]⟩ ∧
    (3 : Nat) ≠ 1 := by
  exact ⟨by decide, by decide⟩

/-- C9 (amended): `update_record_by_id` treats an entity-deleted error as
terminal — it returns failure right after the attempt that raised it, with
no further attempts; `delete_record_by_id` has no such special case: it
retries every exception, entity-deleted included, and only after
`max_attempts` attempts (with linear backoff) returns the last error. -/
theorem c9_entity_deleted_policy (b : Nat → RestOutcome) (max k : Nat)
    (msg : String) (msgf : Nat → String) :
    (k < max →
      (∀ j, j < k → ∃ m, b j = .exc m ∧ pyIn "ENTITY_IS_DELETED" m = false) →
      b k = .exc msg → pyIn "ENTITY_IS_DELETED" msg = true →
      update_record_by_id b max =
        ⟨false, some "Entity is deleted", k + 1, linearDelays 0 k⟩) ∧
    (1 ≤ max → (∀ j, j < max → b j = .exc (msgf j)) →
      delete_record_by_id b max =
        ⟨false, some (msgf (max - 1)), max, linearDelays 0 (max - 1)⟩) := by
  constructor
  · intro hk hpre hbk hst
    unfold update_record_by_id
    rw [List.range_eq_range']
    exact updateLoop_entity_deleted b max k msg hk hpre hbk hst max 0
      (by omega) (by omega)
  · intro hmax hb
    unfold delete_record_by_id
    rw [List.range_eq_range']
    exact deleteLoop_exhaust b max msgf hb max 0 (by omega) (by omega)

/-- Witness for C9: an entity-deleted error on the second update attempt
stops the update loop at attempt 2 of 5; the delete loop with persistent
entity-deleted errors runs all 3 attempts. -/
theorem c9_entity_deleted_policy_witness :
    update_record_by_id
        (fun j => if j = 0 then .exc "ConnectionError"
          else .exc "ENTITY_IS_DELETED: entity is deleted") 5 =
      ⟨false, some "Entity is deleted", 2, [5]⟩ ∧
    delete_record_by_id (fun _ => .exc "ENTITY_IS_DELETED: entity is deleted") 4 =
      ⟨false, some "ENTITY_IS_DELETED: entity is deleted", 4, [5, 10, 15]⟩ := by
  constructor
  · have h := (c9_entity_deleted_policy
      (fun j => if j = 0 then .exc "ConnectionError"
        else .exc "ENTITY_IS_DELETED: entity is deleted") 5 1
      "ENTITY_IS_DELETED: entity is deleted" (fun _ => "")).1
      (by omega)
      (by
        intro j hj
        have hj0 : j = 0 := by omega
        subst hj0
        exact ⟨"ConnectionError", rfl, by decide⟩)
      rfl (by decide)
    simpa [linearDelays, List.range', RETRY_DELAY] using h
  · have h := (c9_entity_deleted_policy
      (fun _ => .exc "ENTITY_IS_DELETED: entity is deleted") 4 0 ""
      (fun _ => "ENTITY_IS_DELETED: entity is deleted")).2
      (by omega) (by intro j hj; rfl)
    simpa [linearDelays, List.range', RETRY_DELAY] using h

/-- The two-record batch exhibiting the C8 slice bug. -/
def c8rec1 : Record := [("Name", some "Acme")]

def c8rec2 : Record := [("Name", some "Globex")]

/-- Insert outcomes for the C8 run: the first record succeeds, the second
hits the storage limit. -/
def c8outcome (i : Nat) : InsOut :=
  if i = 0 then .ok "001A000001" else .err "Storage limit exceeded"

/-- C8: evaluation of `batch_insert_data` at the failing input.  With
records `[c8rec1, c8rec2]` in one chunk, `c8rec1` inserted successfully and
`c8rec2` failing with a storage-limit error, the code appends
`records[i:]` — the suffix from the CHUNK START, not from the failing
record — so the already-successful `c8rec1` is also marked failed and the
failing `c8rec2` is marked failed twice, contradicting the claim that
exactly the failing record and the remaining unprocessed records are
marked failed. -/
theorem c8_batch_insert_marks_chunk_prefix_failed :
    batch_insert_data true c8outcome [c8rec1, c8rec2] =
      ([("001A000001", c8rec1)],
       [(c8rec2, "Storage limit exceeded"),
        (c8rec1, "Storage limit exceeded"),
        (c8rec2, "Storage limit exceeded")]) ∧
    ("001A000001", c8rec1) ∈ (batch_insert_data true c8outcome [c8rec1, c8rec2]).1 ∧
    (c8rec1, "Storage limit exceeded") ∈
      (batch_insert_data true c8outcome [c8rec1, c8rec2]).2 ∧
    ((batch_insert_data true c8outcome [c8rec1, c8rec2]).2.countP
      fun q => q.1 = c8rec2) = 2 := by
  refine ⟨by decide, by decide, by decide, by decide⟩

/-- C2: submitting a bulk ingest with an empty `records` list fails with
the 400 validation error and the job — which is always created before the
emptiness is detected — is left in "Aborted", not "Open": the shared
implementation aborts after serializing the empty batch to a blank CSV,
and the `src/` implementation aborts inside its DML branch for every
ingest operation. -/
theorem c2_empty_records_never_leaves_open_job :
    perform_bulk_operation_shared [] =
      (⟨[(bulkJobId, "Aborted")]⟩, .error (400, "No records to process.")) ∧
    ∀ op, op ∈ dmlOperations →
      perform_bulk_operation_v2 op [] =
        (⟨[(bulkJobId, "Aborted")]⟩,
         .error (400, "No records provided for bulk DML operation.")) := by
  constructor
  · rfl
  · intro op hop
    fin_cases hop <;> rfl

/-- Witness for C2: the upsert case of the `src/` implementation. -/
theorem c2_empty_records_never_leaves_open_job_witness :
    perform_bulk_operation_v2 "upsert" [] =
      (⟨[(bulkJobId, "Aborted")]⟩,
       .error (400, "No records provided for bulk DML operation.")) :=
  c2_empty_records_never_leaves_open_job.2 "upsert" (by decide)

/-- A completed ingest job whose unprocessed-records partition is
non-empty on the Salesforce side. -/
def c3Backend : SfBulkBackend :=
  { jobState := "JobComplete"
    successfulCsv := "sf__Id,sf__Created,Name\n001A,true,Acme\n"
    failedCsv := "sf__Error,Name\n"
    unprocessedCsv := "Name\nOrphan\n" }

/-- C3 counterexample: for a completed ingest job the handler returns
`unprocessed_records = []` even though the job's unprocessed partition
contains a record — the unprocessed CSV is never fetched (only the
successful and failed partitions are), so the claim that all three
partitions are fetched and returned fails. -/
theorem c3_unprocessed_partition_not_fetched :
    handle_get_bulk_job_status c3Backend =
      some (some
        { successful_records :=
            [⟨[("sf__Id", some "001A"), ("sf__Created", some "true"),
               ("Name", some "Acme")], []⟩]
          failed_records := []
          unprocessed_records := [] }) ∧
    parse_csv_string_to_records c3Backend.unprocessedCsv =
      some [⟨[("Name", some "Orphan")], []⟩] ∧
    ([⟨[("Name", some "Orphan")], []⟩] : List PyRecord) ≠ [] := by
  refine ⟨by decide, by decide, by decide⟩

/-- C3 (amended): for every completed ingest job, the handler fetches and
parses exactly two partitions — successful and failed records, each an
ordered sequence of header-keyed mappings — while `unprocessed_records` is
always the empty list because the operations layer never sets the
`unprocessed_records_csv` key the router reads. -/
theorem c3_two_partitions_returned (b : SfBulkBackend) (s f : List PyRecord)
    (hstate : b.jobState = "JobComplete")
    (hs : parse_csv_string_to_records b.successfulCsv = some s)
    (hf : parse_csv_string_to_records b.failedCsv = some f) :
    handle_get_bulk_job_status b = some (some ⟨s, f, []⟩) := by
  unfold handle_get_bulk_job_status get_bulk_job_results_data
  rw [hstate]
  have hempty : parse_csv_string_to_records "" = some [] := by decide
  simp [lookupStr, hs, hf, hempty]

/-- Witness for C3 (amended), at the concrete completed job above. -/
theorem c3_two_partitions_returned_witness :
    handle_get_bulk_job_status c3Backend =
      some (some
        { successful_records :=
            [⟨[("sf__Id", some "001A"), ("sf__Created", some "true"),
               ("Name", some "Acme")], []⟩]
          failed_records := []
          unprocessed_records := [] }) :=
  c3_two_partitions_returned c3Backend _ _ rfl (by decide) (by decide)

/-- A well-formed token-endpoint response. -/
def c5netOk : AuthNet :=
  .ok ⟨some "00Dtoken1", some "https://inst.my.salesforce.com", some 1000000⟩

/-- C5 counterexample: authenticate successfully (both token and URL
cached), then handle a 401 whose re-authentication fails on the network.
`handle_401_unauthorized` clears `access_token` (and the expiry) but not
`instance_url` before re-authenticating, so the failed re-authentication
leaves the cache with `instance_url` present and `access_token` absent —
the both-or-neither invariant does not survive this operation. -/
theorem c5_partial_token_state_after_failed_refresh :
    (authenticate authInit c5netOk).1 =
      ⟨some "00Dtoken1", some "https://inst.my.salesforce.com",
       some (1000000 + assumedValidityMs), some 1000000⟩ ∧
    bothOrNeither (authenticate authInit c5netOk).1 ∧
    (handle_401_unauthorized (authenticate authInit c5netOk).1
        (.error "ConnectionError: token endpoint unreachable")).1 =
      ⟨none, some "https://inst.my.salesforce.com", none, some 1000000⟩ ∧
    ¬ bothOrNeither (handle_401_unauthorized (authenticate authInit c5netOk).1
        (.error "ConnectionError: token endpoint unreachable")).1 := by
  refine ⟨by decide, by decide, by decide, by decide⟩

/-- C5 (amended): the both-or-neither invariant on
(`access_token`, `instance_url`) holds after every `authenticate`,
`get_auth_details` and `handle_401_unauthorized` call that completes
without raising; a failed (re-)authentication can leave the pair
partially set. -/
theorem c5_invariant_on_success (st st2 : AuthState) (net : AuthNet)
    (nowMs bufferS : Int) (r : String × String) (n : Nat) :
    (authenticate st net = (st2, none) → bothOrNeither st2) ∧
    (get_auth_details st nowMs bufferS net = (st2, .ok r, n) → bothOrNeither st2) ∧
    (handle_401_unauthorized st net = (st2, none) → bothOrNeither st2) := by
  have hauth : ∀ st' : AuthState, authenticate st' net = (st2, none) →
      bothOrNeither st2 := by
    intro st' h
    unfold authenticate at h
    match net with
    | .error e => simp at h
    | .ok resp =>
      simp only at h
      match hia : resp.issued_at with
      | none => rw [hia] at h; simp at h
      | some ia =>
        rw [hia] at h
        by_cases hm : resp.access_token = none ∨ resp.instance_url = none
        · simp only [hm, if_pos] at h
          simp at h
        · simp only [hm, if_neg, if_false] at h
          push_neg at hm
          obtain ⟨h1, h2⟩ := hm
          obtain ⟨rfl, -⟩ := Prod.mk.injEq .. ▸ h
          left
          constructor
          · simpa [Option.isSome_iff_ne_none] using h1
          · simpa [Option.isSome_iff_ne_none] using h2
  refine ⟨hauth st, ?_, hauth _⟩
  intro h
  unfold get_auth_details at h
  by_cases hexp : isTokenExpired st nowMs bufferS
  · rw [if_pos hexp] at h
    match hau : authenticate st net with
    | (sa, some e) => rw [hau] at h; simp at h
    | (sa, none) =>
      rw [hau] at h
      simp only at h
      match h1 : sa.access_token, h2 : sa.instance_url with
      | some tok, some url =>
        rw [h1, h2] at h
        simp only [Prod.mk.injEq] at h
        obtain ⟨rfl, -⟩ := h
        left
        exact ⟨by simp [h1], by simp [h2]⟩
      | some tok, none => rw [h1, h2] at h; simp at h
      | none, some url => rw [h1, h2] at h; simp at h
      | none, none => rw [h1, h2] at h; simp at h
  · rw [if_neg hexp] at h
    by_cases hnone : st.access_token = none ∨ st.instance_url = none
    · rw [if_pos hnone] at h
      match hau : authenticate st net with
      | (sa, some e) => rw [hau] at h; simp at h
      | (sa, none) =>
        rw [hau] at h
        simp only at h
        match h1 : sa.access_token, h2 : sa.instance_url with
        | some tok, some url =>
          rw [h1, h2] at h
          simp only [Prod.mk.injEq] at h
          obtain ⟨rfl, -⟩ := h
          left
          exact ⟨by simp [h1], by simp [h2]⟩
        | some tok, none => rw [h1, h2] at h; simp at h
        | none, some url => rw [h1, h2] at h; simp at h
        | none, none => rw [h1, h2] at h; simp at h
    · rw [if_neg hnone] at h
      simp only at h
      push_neg at hnone
      obtain ⟨h1, h2⟩ := hnone
      match h1' : st.access_token, h2' : st.instance_url with
      | some tok, some url =>
        rw [h1', h2'] at h
        simp only [Prod.mk.injEq] at h
        obtain ⟨rfl, -⟩ := h
        left
        exact ⟨by simp [h1'], by simp [h2']⟩
      | some tok, none => exact absurd h2' h2
      | none, some url => exact absurd h1' h1
      | none, none => exact absurd h1' h1

/-- Witness for C5 (amended): a successful authentication from the empty
cache establishes the invariant. -/
theorem c5_invariant_on_success_witness :
    bothOrNeither
      ⟨some "00Dtoken1", some "https://inst.my.salesforce.com",
       some (1000000 + assumedValidityMs), some 1000000⟩ :=
  (c5_invariant_on_success authInit
      ⟨some "00Dtoken1", some "https://inst.my.salesforce.com",
       some (1000000 + assumedValidityMs), some 1000000⟩
      c5netOk 0 0 ("", "") 0).1 (by decide)

theorem runGetAuthN_steady (tok url : String) (ia nowMs bufferS : Int)
    (net : AuthNet)
    (hfresh : nowMs < ia + assumedValidityMs - bufferS * 1000) :
    ∀ M, runGetAuthN
        ⟨some tok, some url, some (ia + assumedValidityMs), some ia⟩
        nowMs bufferS net M =
      (⟨some tok, some url, some (ia + assumedValidityMs), some ia⟩,
       List.replicate M (.ok (tok, url)), 0) := by
  have hexp : isTokenExpired
      ⟨some tok, some url, some (ia + assumedValidityMs), some ia⟩
      nowMs bufferS = false := by
    unfold isTokenExpired
    simp only [decide_eq_false_iff_not]
    omega
  have hone : get_auth_details
      ⟨some tok, some url, some (ia + assumedValidityMs), some ia⟩
      nowMs bufferS net =
      (⟨some tok, some url, some (ia + assumedValidityMs), some ia⟩,
       .ok (tok, url), 0) := by
    unfold get_auth_details
    rw [hexp]
    simp
  intro M
  induction M with
  | zero => rfl
  | succ M ih =>
    unfold runGetAuthN
    rw [hone]
    simp only
    rw [ih]
    rfl

/-- C6: N lock-serialized `get_auth_details()` callers starting from the
empty cache, against a well-formed token response and a clock inside the
refresh window, produce exactly one network authentication call, and every
caller receives the same (token, instance URL) pair. -/
theorem c6_single_flight_authentication (N : Nat) (tok url : String)
    (ia nowMs bufferS : Int) (hN : 1 ≤ N)
    (hfresh : nowMs < ia + assumedValidityMs - bufferS * 1000) :
    runGetAuthN authInit nowMs bufferS (.ok ⟨some tok, some url, some ia⟩) N =
      (⟨some tok, some url, some (ia + assumedValidityMs), some ia⟩,
       List.replicate N (.ok (tok, url)), 1) := by
  obtain ⟨M, rfl⟩ : ∃ M, N = M + 1 := ⟨N - 1, by omega⟩
  have hfirst : get_auth_details authInit nowMs bufferS
      (.ok ⟨some tok, some url, some ia⟩) =
      (⟨some tok, some url, some (ia + assumedValidityMs), some ia⟩,
       .ok (tok, url), 1) := by
    unfold get_auth_details
    have hexp : isTokenExpired authInit nowMs bufferS = true := rfl
    rw [hexp]
    simp [authenticate]
  unfold runGetAuthN
  rw [hfirst]
  simp only
  rw [runGetAuthN_steady tok url ia nowMs bufferS _ hfresh M]
  rfl

/-- Witness for C6: three callers, token issued at epoch millisecond
1000000, clock at 500, 300-second refresh buffer. -/
theorem c6_single_flight_authentication_witness :
    runGetAuthN authInit 500 300
        (.ok ⟨some "00Dtok", some "https://inst.my.salesforce.com",
          some 1000000⟩) 3 =
      (⟨some "00Dtok", some "https://inst.my.salesforce.com",
        some (1000000 + assumedValidityMs), some 1000000⟩,
       List.replicate 3 (.ok ("00Dtok", "https://inst.my.salesforce.com")), 1) :=
  c6_single_flight_authentication 3 "00Dtok" "https://inst.my.salesforce.com"
    1000000 500 300 (by omega) (by norm_num [assumedValidityMs])

theorem pyDictUpd_values (m : List (String × Option String)) (k : String)
    (v : Option String) (P : Option String → Prop)
    (hm : ∀ kv ∈ m, P kv.2) (hv : P v) :
    ∀ kv ∈ pyDictUpd m k v, P kv.2 := by
  intro kv hkv
  unfold pyDictUpd at hkv
  by_cases hmem : m.any fun p => p.1 = k
  · rw [if_pos hmem] at hkv
    obtain ⟨p, hp, hpe⟩ := List.mem_map.mp hkv
    by_cases hpk : p.1 = k
    · rw [if_pos hpk] at hpe
      rw [← hpe]
      exact hv
    · rw [if_neg hpk] at hpe
      rw [← hpe]
      exact hm p hp
  · rw [if_neg hmem] at hkv
    rcases List.mem_append.mp hkv with h | h
    · exact hm kv h
    · rw [List.mem_singleton.mp h]
      exact hv

theorem pyDictOfPairs_values (l : List (String × Option String))
    (P : Option String → Prop) (hl : ∀ kv ∈ l, P kv.2) :
    ∀ kv ∈ pyDictOfPairs l, P kv.2 := by
  suffices h : ∀ (l' : List (String × Option String)) acc,
      (∀ kv ∈ l', P kv.2) → (∀ kv ∈ acc, P kv.2) →
      ∀ kv ∈ l'.foldl (fun m kv => pyDictUpd m kv.1 kv.2) acc, P kv.2 by
    exact h l [] hl (by simp)
  intro l'
  induction l' with
  | nil => intro acc _ hacc kv hkv; exact hacc kv hkv
  | cons hd tl ih =>
    intro acc hl' hacc kv hkv
    simp only [List.foldl_cons] at hkv
    exact ih _ (fun kv' h' => hl' kv' (by simp [h']))
      (pyDictUpd_values acc hd.1 hd.2 P hacc (hl' hd (by simp))) kv hkv

/-- C10 counterexample: on the ragged CSV `"a,b\nx\n"` the parser DOES
produce a `None` field value — the data row is shorter than the header, so
field `b` receives `csv.DictReader`'s `restval` (`None`); an empty cell,
by contrast, parses to the empty string. -/
theorem c10_short_row_yields_none :
    parse_csv_string_to_records "a,b\nx\n" =
      some [⟨[("a", some "x"), ("b", none)], []⟩] ∧
    ("b", (none : Option String)) ∈
      ([("a", some "x"), ("b", (none : Option String))] :
        List (String × Option String)) ∧
    parse_csv_string_to_records "a,b\nx,\n" =
      some [⟨[("a", some "x"), ("b", some "")], []⟩] := by
  refine ⟨by decide, by decide, by decide⟩

/-- C10 (amended): every cell present in a data row parses to a string —
an empty cell yields the empty string — and whenever every data row is at
least as long as the header, no field value is `None`; `None` appears only
as the `restval` padding for rows shorter than the header.  The
empty-string-to-`None` normalization belongs to the CSV branch of
`read_file_data_for_bulk`, whose output never contains an empty-string
value. -/
theorem c10_cells_parse_to_strings (s : String) (fn : List String)
    (dataRows : List (List String)) (recs recsB : List PyRecord)
    (hrows : parseCsvRows s = some (fn :: dataRows))
    (hlen : ∀ row ∈ dataRows, fn.length ≤ row.length)
    (hparse : parse_csv_string_to_records s = some recs)
    (hbulk : read_file_data_for_bulk_csv s = some recsB) :
    (recs.all fun rec => rec.fields.all fun kv => kv.2.isSome) = true ∧
    (recsB.all fun rec => rec.fields.all fun kv => kv.2 != some "") = true := by
  constructor
  · unfold parse_csv_string_to_records at hparse
    by_cases hws : pyStripEmpty s
    · rw [if_pos hws] at hparse
      obtain rfl : recs = [] := by
        simpa using hparse.symm
      rfl
    · rw [if_neg hws, hrows] at hparse
      obtain rfl : recs = (dataRows.filter fun r => r ≠ []).map (dictReaderRow fn) := by
        simpa using hparse.symm
      rw [List.all_eq_true]
      intro rec hrec
      obtain ⟨row, hrowmem, rfl⟩ := List.mem_map.mp hrec
      have hrowlen : fn.length ≤ row.length :=
        hlen row (List.mem_of_mem_filter hrowmem)
      rw [List.all_eq_true]
      intro kv hkv
      have hdrop : fn.drop row.length = [] :=
        List.drop_eq_nil_of_le hrowlen
      unfold dictReaderRow at hkv
      simp only [hdrop, List.map_nil, List.append_nil] at hkv
      have hvals : ∀ kv' ∈ fn.zip (row.map some), kv'.2.isSome = true := by
        intro kv' hkv'
        have h2 := (List.of_mem_zip hkv').2
        obtain ⟨v, -, hv⟩ := List.mem_map.mp h2
        rw [← hv]
        rfl
      exact pyDictOfPairs_values _ (fun v => v.isSome = true) hvals kv hkv
  · unfold read_file_data_for_bulk_csv at hbulk
    rw [hrows] at hbulk
    obtain rfl : recsB = (dataRows.filter fun r => r ≠ []).map fun r =>
        cleanRowForBulk (dictReaderRow fn r) := by
      simpa using hbulk.symm
    rw [List.all_eq_true]
    intro rec hrec
    obtain ⟨row, -, rfl⟩ := List.mem_map.mp hrec
    rw [List.all_eq_true]
    intro kv hkv
    unfold cleanRowForBulk at hkv
    simp only [List.mem_map] at hkv
    obtain ⟨kv', -, rfl⟩ := hkv
    by_cases hempty : kv'.2 = some ""
    · simp [hempty]
    · simp [hempty]

/-- Witness for C10 (amended), on the rectangular CSV `"a,b\nx,\n"`. -/
theorem c10_cells_parse_to_strings_witness :
    (([⟨[("a", some "x"), ("b", some "")], []⟩] : List PyRecord).all
      fun rec => rec.fields.all fun kv => kv.2.isSome) = true ∧
    (([⟨[("a", some "x"), ("b", none)], []⟩] : List PyRecord).all
      fun rec => rec.fields.all fun kv => kv.2 != some "") = true :=
  c10_cells_parse_to_strings "a,b\nx,\n" ["a", "b"] [["x", ""]]
    [⟨[("a", some "x"), ("b", some "")], []⟩]
    [⟨[("a", some "x"), ("b", none)], []⟩]
    (by decide) (by decide) (by decide) (by decide)

/-! ## Round-trip lemmas for the CSV model -/

theorem csvRun_append (l1 l2 : List Char) :
    ∀ p, csvRun p (l1 ++ l2) =
      match csvRun p l1 with
      | none => none
      | some q => csvRun q l2 := by
  induction l1 with
  | nil => intro p; rfl
  | cons c cs ih =>
    intro p
    simp only [List.cons_append, csvRun]
    match csvStep p c with
    | none => rfl
    | some p' => exact ih p'

/-- A character that is neither delimiter, quote, nor newline material. -/
def PlainChar (c : Char) : Prop := c ≠ ',' ∧ c ≠ '"' ∧ c ≠ '\n' ∧ c ≠ '\r'

theorem csvRun_inField_plain (cs : List Char)
    (hcs : ∀ c ∈ cs, PlainChar c) :
    ∀ f row rows, csvRun ⟨.inField, f, row, rows⟩ cs =
      some ⟨.inField, f ++ cs, row, rows⟩ := by
  induction cs with
  | nil => intro f row rows; simp [csvRun]
  | cons c cs ih =>
    intro f row rows
    obtain ⟨h1, h2, h3, h4⟩ := hcs c (by simp)
    simp only [csvRun, csvStep, if_neg h3, if_neg h4, if_neg h1]
    rw [ih (fun c' hc' => hcs c' (by simp [hc'])) (f ++ [c]) row rows]
    simp

theorem csvRun_startField_plain (cs : List Char) (hne : cs ≠ [])
    (hcs : ∀ c ∈ cs, PlainChar c) (f : List Char) (row : List String)
    (rows : List (List String)) :
    csvRun ⟨.startField, f, row, rows⟩ cs =
      some ⟨.inField, f ++ cs, row, rows⟩ := by
  match cs with
  | [] => exact absurd rfl hne
  | c :: cs' =>
    obtain ⟨h1, h2, h3, h4⟩ := hcs c (by simp)
    simp only [csvRun, csvStep, fieldStart, if_neg h3, if_neg h4, if_neg h2,
      if_neg h1]
    rw [csvRun_inField_plain cs' (fun c' hc' => hcs c' (by simp [hc'])) (f ++ [c])
      row rows]
    simp

theorem csvRun_cons (p : CsvParser) (c : Char) (cs : List Char) :
    csvRun p (c :: cs) = match csvStep p c with
      | none => none
      | some p' => csvRun p' cs := rfl

theorem csvRun_cons_some (p q : CsvParser) (c : Char) (cs : List Char)
    (h : csvStep p c = some q) : csvRun p (c :: cs) = csvRun q cs := by
  rw [csvRun_cons, h]

theorem csvRun_inQuoted_esc (cs : List Char) :
    ∀ f row rows, csvRun ⟨.inQuoted, f, row, rows⟩ (escChars cs) =
      some ⟨.inQuoted, f ++ cs, row, rows⟩ := by
  induction cs with
  | nil => intro f row rows; simp [escChars, csvRun]
  | cons c cs ih =>
    intro f row rows
    by_cases hq : c = '"'
    · subst hq
      rw [show escChars ('"' :: cs) = '"' :: '"' :: escChars cs from rfl]
      rw [csvRun_cons_some ⟨.inQuoted, f, row, rows⟩ ⟨.quoteInQuoted, f, row, rows⟩
        '"' ('"' :: escChars cs) rfl]
      rw [csvRun_cons_some ⟨.quoteInQuoted, f, row, rows⟩
        ⟨.inQuoted, f ++ ['"'], row, rows⟩ '"' (escChars cs) rfl]
      rw [ih (f ++ ['"']) row rows]
      simp
    · rw [show escChars (c :: cs) = c :: escChars cs by simp [escChars, hq]]
      rw [csvRun_cons_some _ ⟨.inQuoted, f ++ [c], row, rows⟩ _ _
        (by simp [csvStep, hq])]
      rw [ih (f ++ [c]) row rows]
      simp

theorem plain_of_not_needsQuote (s : String) (hq : needsQuote s = false)
    (hr : '\r' ∉ s.data) : ∀ c ∈ s.data, PlainChar c := by
  intro c hc
  unfold needsQuote at hq
  rw [List.any_eq_false] at hq
  have h := hq c hc
  simp only [Bool.or_eq_true, decide_eq_true_eq, not_or] at h
  exact ⟨h.1.1, h.1.2, h.2, fun hcr => hr (hcr ▸ hc)⟩

theorem csvRun_append_some (l1 l2 : List Char) (p q : CsvParser)
    (h : csvRun p l1 = some q) : csvRun p (l1 ++ l2) = csvRun q l2 := by
  rw [csvRun_append, h]

theorem encodeCell_data_quoted (s : String) (hq : needsQuote s = true) :
    (encodeCell s).data = '"' :: (escChars s.data ++ ['"']) := by
  unfold encodeCell
  rw [if_pos hq]
  simp [String.data_append]

theorem string_mk_data (s : String) : String.mk s.data = s := rfl

theorem string_data_ne_nil (s : String) (h : s ≠ "") : s.data ≠ [] := by
  intro hd
  exact h (by rw [← string_mk_data s, hd])

/-- Consuming one encoded cell followed by the delimiter saves exactly the
original cell text. -/
theorem csvRun_cell_comma (s : String) (hr : '\r' ∉ s.data)
    (row : List String) (rows : List (List String)) :
    csvRun ⟨.startField, [], row, rows⟩ ((encodeCell s).data ++ [',']) =
      some ⟨.startField, [], row ++ [s], rows⟩ := by
  by_cases hq : needsQuote s
  · have hesc : csvRun ⟨.inQuoted, [], row, rows⟩ (escChars s.data) =
        some ⟨.inQuoted, s.data, row, rows⟩ := by
      simpa using csvRun_inQuoted_esc s.data [] row rows
    have hstream : (encodeCell s).data ++ [','] =
        '"' :: (escChars s.data ++ ['"', ',']) := by
      rw [encodeCell_data_quoted s hq]
      simp
    rw [hstream]
    rw [csvRun_cons_some ⟨.startField, [], row, rows⟩ ⟨.inQuoted, [], row, rows⟩
      '"' (escChars s.data ++ ['"', ',']) rfl]
    rw [csvRun_append_some (escChars s.data) ['"', ','] _
      ⟨.inQuoted, s.data, row, rows⟩ hesc]
    rw [csvRun_cons_some ⟨.inQuoted, s.data, row, rows⟩
      ⟨.quoteInQuoted, s.data, row, rows⟩ '"' [','] rfl]
    rw [csvRun_cons_some ⟨.quoteInQuoted, s.data, row, rows⟩
      ⟨.startField, [], row ++ [String.mk s.data], rows⟩ ',' [] rfl]
    rw [string_mk_data]
    rfl
  · by_cases hs : s = ""
    · subst hs
      rfl
    · have hplain : ∀ c ∈ s.data, PlainChar c :=
        plain_of_not_needsQuote s (by simpa using hq) hr
      have hrun : csvRun ⟨.startField, [], row, rows⟩ s.data =
          some ⟨.inField, s.data, row, rows⟩ := by
        simpa using csvRun_startField_plain s.data (string_data_ne_nil s hs)
          hplain [] row rows
      rw [show (encodeCell s).data = s.data by simp [encodeCell, hq]]
      rw [csvRun_append_some s.data [','] _ ⟨.inField, s.data, row, rows⟩ hrun]
      rw [csvRun_cons_some ⟨.inField, s.data, row, rows⟩
        ⟨.startField, [], row ++ [String.mk s.data], rows⟩ ',' [] rfl]
      rw [string_mk_data]
      rfl

/-- Consuming one encoded cell followed by the record terminator saves the
cell and emits the accumulated record. -/
theorem csvRun_cell_newline (s : String) (hr : '\r' ∉ s.data)
    (row : List String) (rows : List (List String)) :
    csvRun ⟨.startField, [], row, rows⟩ ((encodeCell s).data ++ ['\n']) =
      some ⟨.startRecord, [], [], rows ++ [row ++ [s]]⟩ := by
  by_cases hq : needsQuote s
  · have hesc : csvRun ⟨.inQuoted, [], row, rows⟩ (escChars s.data) =
        some ⟨.inQuoted, s.data, row, rows⟩ := by
      simpa using csvRun_inQuoted_esc s.data [] row rows
    have hstream : (encodeCell s).data ++ ['\n'] =
        '"' :: (escChars s.data ++ ['"', '\n']) := by
      rw [encodeCell_data_quoted s hq]
      simp
    rw [hstream]
    rw [csvRun_cons_some ⟨.startField, [], row, rows⟩ ⟨.inQuoted, [], row, rows⟩
      '"' (escChars s.data ++ ['"', '\n']) rfl]
    rw [csvRun_append_some (escChars s.data) ['"', '\n'] _
      ⟨.inQuoted, s.data, row, rows⟩ hesc]
    rw [csvRun_cons_some ⟨.inQuoted, s.data, row, rows⟩
      ⟨.quoteInQuoted, s.data, row, rows⟩ '"' ['\n'] rfl]
    rw [csvRun_cons_some ⟨.quoteInQuoted, s.data, row, rows⟩
      ⟨.startRecord, [], [], rows ++ [row ++ [String.mk s.data]]⟩ '\n' [] rfl]
    rw [string_mk_data]
    rfl
  · by_cases hs : s = ""
    · subst hs
      rfl
    · have hplain : ∀ c ∈ s.data, PlainChar c :=
        plain_of_not_needsQuote s (by simpa using hq) hr
      have hrun : csvRun ⟨.startField, [], row, rows⟩ s.data =
          some ⟨.inField, s.data, row, rows⟩ := by
        simpa using csvRun_startField_plain s.data (string_data_ne_nil s hs)
          hplain [] row rows
      rw [show (encodeCell s).data = s.data by simp [encodeCell, hq]]
      rw [csvRun_append_some s.data ['\n'] _ ⟨.inField, s.data, row, rows⟩ hrun]
      rw [csvRun_cons_some ⟨.inField, s.data, row, rows⟩
        ⟨.startRecord, [], [], rows ++ [row ++ [String.mk s.data]]⟩ '\n' [] rfl]
      rw [string_mk_data]
      rfl

theorem string_ne_empty_of_data (s : String) (h : s.data ≠ []) : s ≠ "" :=
  fun he => h (by rw [he])

/-- One full comma-separated cell list, ending at the record terminator. -/
theorem csvRun_cells (cells : List String) :
    cells ≠ [] → (∀ s ∈ cells, '\r' ∉ s.data) →
    ∀ row rows, csvRun ⟨.startField, [], row, rows⟩
        ((encodeCells cells).data ++ ['\n']) =
      some ⟨.startRecord, [], [], rows ++ [row ++ cells]⟩ := by
  induction cells with
  | nil => intro h; exact absurd rfl h
  | cons s rest ih =>
    intro _ hcr row rows
    cases rest with
    | nil =>
      have h := csvRun_cell_newline s (hcr s (by simp)) row rows
      simpa [encodeCells] using h
    | cons s' rest' =>
      have hsplit : (encodeCells (s :: s' :: rest')).data ++ ['\n'] =
          ((encodeCell s).data ++ [',']) ++
            ((encodeCells (s' :: rest')).data ++ ['\n']) := by
        show (encodeCell s ++ "," ++ encodeCells (s' :: rest')).data ++ ['\n'] = _
        simp [String.data_append]
      rw [hsplit]
      rw [csvRun_append_some _ _ _ ⟨.startField, [], row ++ [s], rows⟩
        (csvRun_cell_comma s (hcr s (by simp)) row rows)]
      rw [ih (by simp) (fun t ht => hcr t (by simp [ht])) (row ++ [s]) rows]
      simp

theorem csvRun_startRecord_cons (f : List Char) (row : List String)
    (rows : List (List String)) (c : Char) (cs : List Char)
    (h1 : c ≠ '\n') (h2 : c ≠ '\r') :
    csvRun ⟨.startRecord, f, row, rows⟩ (c :: cs) =
      csvRun ⟨.startField, f, row, rows⟩ (c :: cs) := by
  rw [csvRun_cons, csvRun_cons]
  have h : csvStep ⟨.startRecord, f, row, rows⟩ c =
      csvStep ⟨.startField, f, row, rows⟩ c := by
    simp [csvStep, fieldStart, h1, h2]
  rw [h]

theorem encodeCells_stream_head (s : String) (rest : List String)
    (hr : '\r' ∉ s.data) (hsp : ¬(s = "" ∧ rest = [])) :
    ∃ c cs, (encodeCells (s :: rest)).data ++ ['\n'] = c :: cs ∧
      c ≠ '\n' ∧ c ≠ '\r' := by
  have hdata : ∃ t, (encodeCells (s :: rest)).data ++ ['\n'] =
      (encodeCell s).data ++ t := by
    cases rest with
    | nil => exact ⟨['\n'], by simp [encodeCells]⟩
    | cons s' r' =>
      refine ⟨(("," ++ encodeCells (s' :: r')).data) ++ ['\n'], ?_⟩
      show (encodeCell s ++ "," ++ encodeCells (s' :: r')).data ++ ['\n'] = _
      simp [String.data_append]
  obtain ⟨t, ht⟩ := hdata
  by_cases hq : needsQuote s
  · rw [ht, encodeCell_data_quoted s hq]
    exact ⟨'"', _, rfl, by decide, by decide⟩
  · by_cases hs : s = ""
    · subst hs
      cases rest with
      | nil => exact absurd ⟨rfl, rfl⟩ hsp
      | cons s' r' =>
        refine ⟨',', (encodeCells (s' :: r')).data ++ ['\n'], ?_, by decide, by decide⟩
        show (encodeCell "" ++ "," ++ encodeCells (s' :: r')).data ++ ['\n'] = _
        simp [String.data_append]
        rfl
    · have hplain := plain_of_not_needsQuote s (by simpa using hq) hr
      rw [ht, show (encodeCell s).data = s.data by simp [encodeCell, hq]]
      match hd : s.data with
      | [] => exact absurd (string_mk_data s ▸ hd ▸ rfl) hs
      | c :: cs =>
        obtain ⟨-, -, h3, h4⟩ := hplain c (by rw [hd]; simp)
        exact ⟨c, cs ++ t, by simp, h3, h4⟩

theorem encodeCell_eq_empty (s : String) (h : encodeCell s = "") : s = "" := by
  unfold encodeCell at h
  by_cases hq : needsQuote s
  · rw [if_pos hq] at h
    have := congrArg String.data h
    simp [String.data_append] at this
  · rwa [if_neg hq] at h

theorem encodeCells_ne_empty (cells : List String) (h1 : cells ≠ [])
    (h2 : cells ≠ [""]) : encodeCells cells ≠ "" := by
  match cells with
  | [] => exact absurd rfl h1
  | [s] =>
    intro he
    exact h2 (by rw [encodeCell_eq_empty s (by simpa [encodeCells] using he)])
  | s :: s' :: r =>
    apply string_ne_empty_of_data
    show (encodeCell s ++ "," ++ encodeCells (s' :: r)).data ≠ []
    simp [String.data_append]

/-- One full CSV record line (with terminator), consumed from the
start-of-record state: appends exactly the original cells as a record. -/
theorem csvRun_row (cells : List String) (rows : List (List String))
    (hne : cells ≠ []) (hcr : ∀ s ∈ cells, '\r' ∉ s.data) :
    csvRun ⟨.startRecord, [], [], rows⟩ ((encodeRow cells).data ++ ['\n']) =
      some ⟨.startRecord, [], [], rows ++ [cells]⟩ := by
  by_cases hsp : cells = [""]
  · subst hsp
    rw [show (encodeRow [""]).data ++ ['\n'] = ['"', '"', '\n'] from rfl]
    rw [csvRun_cons_some ⟨.startRecord, [], [], rows⟩ ⟨.inQuoted, [], [], rows⟩
      '"' _ rfl]
    rw [csvRun_cons_some ⟨.inQuoted, [], [], rows⟩ ⟨.quoteInQuoted, [], [], rows⟩
      '"' _ rfl]
    rw [csvRun_cons_some ⟨.quoteInQuoted, [], [], rows⟩
      ⟨.startRecord, [], [], rows ++ [[String.mk []]]⟩ '\n' [] rfl]
    rfl
  · have hrow : encodeRow cells = encodeCells cells := by
      unfold encodeRow
      simp [encodeCells_ne_empty cells hne hsp]
    rw [hrow]
    match cells, hne with
    | s :: rest, _ =>
      have hsp' : ¬(s = "" ∧ rest = []) := by
        rintro ⟨rfl, rfl⟩
        exact hsp rfl
      obtain ⟨c, cs, hl, h1, h2⟩ :=
        encodeCells_stream_head s rest (hcr s (by simp)) hsp'
      rw [hl, csvRun_startRecord_cons [] [] rows c cs h1 h2, ← hl]
      simpa using csvRun_cells (s :: rest) (by simp) hcr [] rows

theorem writeRows_data (r : List String) (rs : List (List String)) :
    (writeRows (r :: rs)).data =
      ((encodeRow r).data ++ ['\n']) ++ (writeRows rs).data := by
  show (encodeRow r ++ "\n" ++ writeRows rs).data = _
  simp [String.data_append]

theorem csvRun_writeRows (rows : List (List String))
    (hne : ∀ r ∈ rows, r ≠ [])
    (hcr : ∀ r ∈ rows, ∀ s ∈ r, '\r' ∉ s.data) :
    ∀ acc, csvRun ⟨.startRecord, [], [], acc⟩ (writeRows rows).data =
      some ⟨.startRecord, [], [], acc ++ rows⟩ := by
  induction rows with
  | nil => intro acc; simp [writeRows, csvRun]
  | cons r rs ih =>
    intro acc
    rw [writeRows_data]
    rw [csvRun_append_some _ _ _ ⟨.startRecord, [], [], acc ++ [r]⟩
      (csvRun_row r acc (hne r (by simp)) (hcr r (by simp)))]
    rw [ih (fun r' hr' => hne r' (by simp [hr']))
      (fun r' hr' => hcr r' (by simp [hr'])) (acc ++ [r])]
    simp

/-- The low-level reader inverts the writer on record lists whose rows are
non-empty and whose cells are free of carriage returns. -/
theorem parseCsvRows_writeRows (rows : List (List String))
    (hne : ∀ r ∈ rows, r ≠ [])
    (hcr : ∀ r ∈ rows, ∀ s ∈ r, '\r' ∉ s.data) :
    parseCsvRows (writeRows rows) = some rows := by
  unfold parseCsvRows
  rw [show csvInit = ⟨.startRecord, [], [], []⟩ from rfl]
  rw [csvRun_writeRows rows hne hcr []]
  rfl

theorem pyDictOfPairs_nodup (l : List (String × Option String))
    (hnd : (l.map Prod.fst).Nodup) : pyDictOfPairs l = l := by
  suffices h : ∀ (l' : List (String × Option String)) acc,
      (∀ kv ∈ l', ∀ kv' ∈ acc, kv.1 ≠ kv'.1) → (l'.map Prod.fst).Nodup →
      l'.foldl (fun m kv => pyDictUpd m kv.1 kv.2) acc = acc ++ l' by
    simpa using h l [] (by simp) hnd
  intro l'
  induction l' with
  | nil => intro acc _ _; simp
  | cons hd tl ih =>
    intro acc hdisj hnd'
    simp only [List.foldl_cons]
    have hupd : pyDictUpd acc hd.1 hd.2 = acc ++ [hd] := by
      unfold pyDictUpd
      rw [if_neg]
      simp only [List.any_eq_true, decide_eq_true_eq, not_exists, not_and]
      intro kv' hkv' hk
      exact hdisj hd (by simp) kv' hkv' hk.symm
    rw [hupd]
    rw [ih (acc ++ [hd]) ?_ ?_]
    · simp
    · intro kv hkv kv' hkv'
      rcases List.mem_append.mp hkv' with h' | h'
      · exact hdisj kv (by simp [hkv]) kv' h'
      · rw [List.mem_singleton.mp h']
        intro he
        have : hd.1 ∈ tl.map Prod.fst := by
          rw [← he]
          exact List.mem_map_of_mem Prod.fst hkv
        simp only [List.map_cons, List.nodup_cons] at hnd'
        exact hnd'.1 this
    · simp only [List.map_cons, List.nodup_cons] at hnd'
      exact hnd'.2

theorem dictReaderRow_rect (fn : List String) (row : List String)
    (hlen : row.length = fn.length) (hnd : fn.Nodup) :
    dictReaderRow fn row = ⟨fn.zip (row.map some), []⟩ := by
  unfold dictReaderRow
  have hdrop1 : fn.drop row.length = [] :=
    List.drop_eq_nil_of_le (by omega)
  have hdrop2 : row.drop fn.length = [] :=
    List.drop_eq_nil_of_le (by omega)
  rw [hdrop1, hdrop2]
  simp only [List.map_nil, List.append_nil]
  congr 1
  apply pyDictOfPairs_nodup
  rw [List.map_fst_zip]
  · exact hnd
  · simp [hlen]

/-- C1 counterexample: a field value containing a carriage return breaks
the round trip.  The writer emits `"x\r"` unquoted (only `','`, `'"'` and
the `'\n'` line terminator trigger quoting), and the reader treats the
`'\r'` as a record terminator, so the value comes back as `"x"` — not
`"x\r"` and not an empty string, i.e. outside the claimed
`None`-to-empty-string latitude. -/
theorem c1_carriage_return_breaks_roundtrip :
    convert_records_to_csv_string [[("a", some "x\r")]] = "a\nx\r\n" ∧
    parse_csv_string_to_records
        (convert_records_to_csv_string [[("a", some "x\r")]]) =
      some [⟨[("a", some "x")], []⟩] ∧
    cellOf [("a", some "x\r")] "a" = "x\r" ∧
    (some [(⟨[("a", some "x")], []⟩ : PyRecord)] ≠
      some [⟨[("a", some "x\r")], []⟩]) := by
  refine ⟨by decide, by decide, by decide, by decide⟩

/-- C1 (amended): serialization followed by parsing is a round trip up to
the `None`/missing-key ↦ empty-string mapping, provided the chosen field
names are non-empty, duplicate-free and carriage-return-free, no
serialized cell contains a carriage return, and the emitted CSV is not
entirely whitespace: every parsed record equals the original record
restricted to the chosen field order, with each value read back exactly
and `None`/missing fields read back as the empty string. -/
theorem c1_csv_roundtrip (records : List Record)
    (field_order : Option (List String)) (hne : records ≠ [])
    (hfn : csvFieldnames records field_order ≠ [])
    (hnd : (csvFieldnames records field_order).Nodup)
    (hcrf : ∀ f ∈ csvFieldnames records field_order, '\r' ∉ f.data)
    (hcrv : ∀ r ∈ records, ∀ f ∈ csvFieldnames records field_order,
      '\r' ∉ (cellOf r f).data)
    (hws : pyStripEmpty (convert_records_to_csv_string records field_order)
      = false) :
    parse_csv_string_to_records
        (convert_records_to_csv_string records field_order) =
      some (records.map fun r =>
        ⟨(csvFieldnames records field_order).map fun f => (f, some (cellOf r f)),
         []⟩) := by
  have hconv : convert_records_to_csv_string records field_order =
      writeRows ((csvFieldnames records field_order) ::
        records.map fun r => (csvFieldnames records field_order).map (cellOf r)) := by
    unfold convert_records_to_csv_string
    rw [if_neg (by simpa using hne)]
    simp only
    rw [if_neg (by simpa using hfn)]
  have hrowsne : ∀ r ∈ (csvFieldnames records field_order) ::
      records.map fun r => (csvFieldnames records field_order).map (cellOf r),
      r ≠ [] := by
    intro r hr
    rcases List.mem_cons.mp hr with rfl | hr'
    · exact hfn
    · obtain ⟨rec, -, rfl⟩ := List.mem_map.mp hr'
      simp only [ne_eq, List.map_eq_nil_iff]
      exact hfn
  have hrowscr : ∀ r ∈ (csvFieldnames records field_order) ::
      records.map fun r => (csvFieldnames records field_order).map (cellOf r),
      ∀ s ∈ r, '\r' ∉ s.data := by
    intro r hr s hs
    rcases List.mem_cons.mp hr with rfl | hr'
    · exact hcrf s hs
    · obtain ⟨rec, hrec, rfl⟩ := List.mem_map.mp hr'
      obtain ⟨f, hf, rfl⟩ := List.mem_map.mp hs
      exact hcrv rec hrec f hf
  rw [hconv]
  unfold parse_csv_string_to_records
  rw [if_neg (by rw [← hconv, hws]; simp)]
  rw [parseCsvRows_writeRows _ hrowsne hrowscr]
  simp only
  have hfilter : (records.map fun r =>
      (csvFieldnames records field_order).map (cellOf r)).filter
        (fun r => r ≠ []) =
      records.map fun r => (csvFieldnames records field_order).map (cellOf r) := by
    rw [List.filter_eq_self]
    intro row hrow
    obtain ⟨rec, -, rfl⟩ := List.mem_map.mp hrow
    simpa using hfn
  rw [hfilter, List.map_map]
  congr 1
  apply List.map_congr_left
  intro r _
  simp only [Function.comp_apply]
  rw [dictReaderRow_rect _ _ (by simp) hnd]
  congr 1
  rw [List.map_map, List.map_prod_left_eq_zip]
  rfl

/-- Witness for C1 (amended): a two-record batch with a quoted comma, a
quoted doubled quote, an embedded newline, a `None` value and a missing
key round-trips as claimed. -/
theorem c1_csv_roundtrip_witness :
    parse_csv_string_to_records
        (convert_records_to_csv_string
          [[("Name", some "Acme, Inc."), ("Note", some "say \"hi\"\nok")],
           [("Note", none)]]) =
      some
        [⟨[("Name", some "Acme, Inc."), ("Note", some "say \"hi\"\nok")], []⟩,
         ⟨[("Name", some ""), ("Note", some "")], []⟩] := by
  have h := c1_csv_roundtrip
    [[("Name", some "Acme, Inc."), ("Note", some "say \"hi\"\nok")],
     [("Note", none)]] none
    (by decide) (by decide) (by decide) (by decide) (by decide) (by decide)
  simpa using h

theorem lookupField_filter (r : Record) (fo : List String) (f : String)
    (hf : fo.contains f = true) :
    lookupField (r.filter fun kv => fo.contains kv.1) f = lookupField r f := by
  induction r with
  | nil => rfl
  | cons kv rest ih =>
    obtain ⟨k, v⟩ := kv
    rw [List.filter_cons]
    by_cases hc : fo.contains k
    · rw [if_pos (by simpa using hc)]
      by_cases hk : k = f
      · simp only [lookupField, if_pos hk]
      · simp only [lookupField, if_neg hk]
        exact ih
    · rw [if_neg (by simpa using hc)]
      have hk : k ≠ f := fun he => hc (by rw [he]; exact hf)
      simp only [lookupField, if_neg hk]
      exact ih

theorem csvFieldnames_explicit (records : List Record) (fo : List String)
    (hfo : fo ≠ []) : csvFieldnames records (some fo) = fo := by
  have hie : fo.isEmpty = false := by
    cases fo with
    | nil => exact absurd rfl hfo
    | cons a l => rfl
  simp [csvFieldnames, hie]

/-- C4: for every non-empty batch serialized with an explicit non-empty
`field_order`, (i) the emitted CSV is the `field_order` header line
followed by one row per record whose cells are the record's values at the
`field_order` fields in that exact order — independent of each record's
own key order; (ii) a field missing from a record serializes as an empty
cell, as does an explicit `None`; (iii) keys absent from `field_order` are
omitted: dropping them from every record leaves the output unchanged. -/
theorem c4_explicit_field_order (records : List Record) (fo : List String)
    (hne : records ≠ []) (hfo : fo ≠ []) :
    convert_records_to_csv_string records (some fo) =
      encodeRow fo ++ "\n" ++
        writeRows (records.map fun r => fo.map (cellOf r)) ∧
    (∀ r : Record, ∀ f, lookupField r f = none → cellOf r f = "") ∧
    (∀ r : Record, ∀ f, lookupField r f = some none → cellOf r f = "") ∧
    convert_records_to_csv_string
        (records.map fun r => r.filter fun kv => fo.contains kv.1)
        (some fo) =
      convert_records_to_csv_string records (some fo) := by
  have hconv : ∀ recs : List Record, recs ≠ [] →
      convert_records_to_csv_string recs (some fo) =
        encodeRow fo ++ "\n" ++ writeRows (recs.map fun r => fo.map (cellOf r)) := by
    intro recs hrecs
    unfold convert_records_to_csv_string
    rw [if_neg (by simpa using hrecs)]
    simp only [csvFieldnames_explicit recs fo hfo]
    rw [if_neg (by simpa using hfo)]
    rfl
  refine ⟨hconv records hne, ?_, ?_, ?_⟩
  · intro r f h
    unfold cellOf
    rw [h]
  · intro r f h
    unfold cellOf
    rw [h]
  · rw [hconv records hne, hconv _ (by simpa using hne)]
    congr 2
    rw [List.map_map]
    apply List.map_congr_left
    intro r _
    simp only [Function.comp_apply]
    apply List.map_congr_left
    intro f hf
    unfold cellOf
    rw [lookupField_filter r fo f (by simpa using hf)]

/-- Witness for C4: records with shuffled key order, a missing field and
an extra key serialize under `field_order = ["a", "b"]` to the claimed
shape, and dropping the extra key changes nothing. -/
theorem c4_explicit_field_order_witness :
    convert_records_to_csv_string
        [[("b", some "2"), ("a", some "1"), ("z", some "9")], [("b", some "4")]]
        (some ["a", "b"]) =
      encodeRow ["a", "b"] ++ "\n" ++
        writeRows [["1", "2"], ["", "4"]] ∧
    convert_records_to_csv_string
        (([[("b", some "2"), ("a", some "1"), ("z", some "9")],
           [("b", some "4")]] : List Record).map fun r =>
          r.filter fun kv => (["a", "b"] : List String).contains kv.1)
        (some ["a", "b"]) =
      convert_records_to_csv_string
        [[("b", some "2"), ("a", some "1"), ("z", some "9")], [("b", some "4")]]
        (some ["a", "b"]) := by
  have h := c4_explicit_field_order
    [[("b", some "2"), ("a", some "1"), ("z", some "9")], [("b", some "4")]]
    ["a", "b"] (by decide) (by decide)
  exact ⟨by simpa using h.1, h.2.2.2⟩

end SfCrud
